import Mathlib

/-!
Verification of the PayScope repository (frontend expense-selection logic in
`frontend/src/App.jsx`, the expenses API client, and the OCR core described by
the specification) against its natural-language specification.

Frontend functions are embedded directly from the JavaScript source.  The OCR
core (the spendmate-ocr service: engine orchestrator, line normalizer, source
classifier, field extractor, account masking) is not present in the source
tree — only its README and its frontend callers are — so those components are
modelled from the specification text, as marked in their doc comments.
-/

namespace PayScope

/-! ## Frontend selection state (`App.jsx`) -/

/-- Field keys of the selection object, from `FIELD_DEFINITIONS` in `App.jsx`
(keys `merchant`, `quantity`, `amount`, `date`). -/
inductive Field where
  | merchant
  | quantity
  | amount
  | date
deriving DecidableEq, Repr

/-- The `selections` state object: a total map from field key to the selected
line text (all keys are initialized by `buildInitialSelections`). -/
def Selections : Type := Field → String

/-- Embedding of `buildInitialSelections`: every field starts as the empty
string. -/
def buildInitialSelections : Selections := fun _ => ""

/-- Embedding of `toggleSelection` (`App.jsx` lines 774-780): if the current
value of the field equals the clicked value the field is reset to the empty
string, otherwise it is set to the clicked value; other fields are copied
unchanged by the object spread. -/
def toggleSelection (fieldKey : Field) (value : String) (prev : Selections) :
    Selections := fun k =>
  if k = fieldKey then (if prev fieldKey = value then "" else value) else prev k

/-! ## Participant count and equal share (`App.jsx`) -/

/-- A JavaScript number as produced by `Number(event.target.value)`: NaN,
positive or negative infinity, or a finite value (modelled exactly as a
rational). -/
inductive JSNum where
  | nan
  | posInf
  | negInf
  | fin (q : ℚ)
deriving DecidableEq

/-- JavaScript `Math.round` on a finite number: rounds half away from zero
towards positive infinity, i.e. `⌊q + 1/2⌋`. -/
def jsRound (q : ℚ) : ℤ := ⌊q + 1 / 2⌋

/-- Embedding of `handleParticipantCountChange` (`App.jsx` lines 831-838)
applied to `next = Number(event.target.value)`: NaN or a value `≤ 0` stores 1;
positive infinity stores `min 99 ∞ = 99`; a finite positive value stores
`Math.min(99, Math.round(next))`.  Returns the stored participant count. -/
def handleParticipantCountChange (next : JSNum) : ℤ :=
  match next with
  | .nan => 1
  | .negInf => 1
  | .posInf => 99
  | .fin q => if q ≤ 0 then 1 else min 99 (jsRound q)

/-- Embedding of the `equalShare` memo (`App.jsx` lines 840-843): `null` when
`totalAmount` is `null` or `participantCount ≤ 0`, otherwise the exact
quotient. -/
def equalShare (totalAmount : Option ℚ) (participantCount : ℤ) : Option ℚ :=
  match totalAmount with
  | none => none
  | some t => if participantCount ≤ 0 then none else some (t / participantCount)

/-! ## Amount parsing (`App.jsx` `parseAmount`) -/

/-- Character class kept by `value.replace(/[^\d.-]/g, '')`: decimal digits,
the dot and the hyphen-minus. -/
def keepChar (c : Char) : Bool := c.isDigit || c = '.' || c = '-'

/-- Numeric value of a digit string (most significant first). -/
def digitsToNat (cs : List Char) : ℕ :=
  cs.foldl (fun a c => 10 * a + (c.toNat - 48)) 0

/-- Splits a character list at the first dot: returns the part before the dot
and, when a dot is present, the part after it. -/
def splitAtDot : List Char → List Char × Option (List Char)
  | [] => ([], none)
  | c :: rest =>
    if c = '.' then ([], some rest)
    else (c :: (splitAtDot rest).1, (splitAtDot rest).2)

/-- JavaScript `Number(s)` on an unsigned candidate over the kept alphabet:
accepts `digits`, `digits.digits?`, `.digits` (at most one dot, at least one
digit) and yields the exact rational value; anything else is NaN (`none`). -/
def jsUnsignedDec (cs : List Char) : Option ℚ :=
  match splitAtDot cs with
  | (ip, none) =>
    if ip ≠ [] ∧ ip.all Char.isDigit then some (digitsToNat ip) else none
  | (ip, some fp) =>
    if ip.all Char.isDigit ∧ fp.all Char.isDigit ∧ (ip ≠ [] ∨ fp ≠ []) then
      some ((digitsToNat ip : ℚ) + (digitsToNat fp : ℚ) / (10 : ℚ) ^ fp.length)
    else none

/-- JavaScript `Number(s)` over the kept alphabet: an optional leading minus
followed by an unsigned decimal; `none` models NaN. -/
def jsNumber (cs : List Char) : Option ℚ :=
  match cs with
  | [] => none
  | c :: rest =>
    if c = '-' then (jsUnsignedDec rest).map Neg.neg
    else jsUnsignedDec (c :: rest)

/-- Embedding of `parseAmount` (`App.jsx` lines 793-799): an empty (falsy)
string yields `null`; otherwise all characters other than digits, dot and
minus are stripped; an empty residue yields `null`; otherwise the residue is
parsed with `Number` and non-finite results yield `null`. -/
def parseAmount (value : String) : Option ℚ :=
  if value.toList = [] then none
  else if value.toList.filter keepChar = [] then none
  else jsNumber (value.toList.filter keepChar)

/-! ## Expenses API client (`api/expenses.js`, `fetchLatestExpense`) -/

/-- A JSON value, as produced by `response.json()`. -/
inductive Json where
  | null
  | bool (b : Bool)
  | num (q : ℚ)
  | str (s : String)
  | arr (xs : List Json)
  | obj (fields : List (String × Json))

/-- Property access `payload?.detail`: object field lookup (first matching
key); `none` models `undefined`, returned for a missing key or a non-object
payload. -/
def Json.getField : Json → String → Option Json
  | .obj fields, key =>
    match fields.find? (fun f => f.1 = key) with
    | some f => some f.2
    | none => none
  | _, _ => none

/-- JavaScript truthiness of a JSON value (used by the `||` fallback). -/
def jsTruthy : Json → Bool
  | .null => false
  | .bool b => b
  | .num q => q ≠ 0
  | .str s => s ≠ ""
  | .arr _ => true
  | .obj _ => true

/-- An HTTP response as seen by the client: its status code and the outcome of
`response.json()` (`Except.error` models a rejected body parse, caught by the
`.catch(() => ({}))` in the error branch). -/
structure Response where
  status : ℕ
  body : Except Unit Json

/-- `response.ok`: status in the range 200-299. -/
def Response.ok (r : Response) : Bool := 200 ≤ r.status ∧ r.status ≤ 299

/-- Distinguishes the two successful return statements of
`fetchLatestExpense`: the explicit `return null` on 204, and
`return response.json()` with the parsed body. -/
inductive FetchResult where
  | noContent
  | body (j : Json)

/-- How `fetchLatestExpense` can reject: with the `Error` thrown on a non-ok
status (carrying the value passed to `new Error`), or with the rejection of
`response.json()` on a 2xx body that fails to parse. -/
inductive FetchErr where
  | appError (msg : Json)
  | bodyParseError

/-- The fallback message of `fetchLatestExpense`. -/
def latestExpenseFallbackMsg : Json := Json.str "최근 저장본을 불러오지 못했습니다."

/-- The value passed to `new Error` in the non-ok branch:
`payload?.detail || fallback`, where `payload` is the parsed body or `{}`
when parsing failed — the detail field when it is present and truthy, the
fixed fallback message otherwise. -/
def errorMsgOf (body : Except Unit Json) : Json :=
  match (body.toOption.getD (Json.obj [])).getField "detail" with
  | some d => if jsTruthy d then d else latestExpenseFallbackMsg
  | none => latestExpenseFallbackMsg

/-- Embedding of `fetchLatestExpense` (`api/expenses.js`): status 204 returns
`null`; a non-ok status throws `new Error(payload?.detail || fallback)`;
otherwise the parsed JSON body is returned. -/
def fetchLatestExpense (r : Response) : Except FetchErr FetchResult :=
  if r.status = 204 then .ok .noContent
  else if ¬ r.ok then .error (.appError (errorMsgOf r.body))
  else
    match r.body with
    | .ok j => .ok (.body j)
    | .error _ => .error .bodyParseError

/-! ## OCR core: account masking (spec §4.5, §8)

The spendmate-ocr service source is not in the tree; the masking operation is
modelled from the specification. -/

/-- The fixed mask character of the masking operation. -/
def maskChar : Char := '*'

/-- Modelled from the spec: the account masking operation of the Field
Extractor (absent spendmate-ocr source).  Per §4.5, the matched
account-number pattern has "all but the first 4 and last 2-3 digits replaced
by a fixed mask character"; the number of preserved trailing characters is
the parameter `keepTail` (the spec leaves the exact boundary, 2 or 3, as a
configurable product decision).  The result keeps the first 4 characters,
then one mask character for each remaining middle character, then the last
`keepTail` characters. -/
def maskAccount (keepTail : ℕ) (s : String) : String :=
  let cs := s.toList
  String.mk
    (cs.take 4 ++ List.replicate (cs.length - (4 + keepTail)) maskChar ++
      cs.drop (cs.length - keepTail))

/-! ## OCR core: engine orchestrator (spec §4.2)

Modelled from the spec; the spendmate-ocr orchestrator source is absent. -/

/-- Which engine produced a result. -/
inductive EngineId where
  | primary
  | fallback
deriving DecidableEq, Repr

/-- Distinguishable engine failure reasons (spec §4.1). -/
inductive EngineError where
  | unauthorized
  | timeout
  | quotaExceeded
  | malformedImage
  | noTextFound
  | transportError
deriving DecidableEq, Repr

/-- Bounding box of a recognized line, in image pixel coordinates. -/
structure BBox where
  x : ℚ
  y : ℚ
  w : ℚ
  h : ℚ
deriving DecidableEq, Repr

/-- A recognized OCR line (spec §3 `RawOCRLine`). -/
structure RawOCRLine where
  text : String
  box : BBox
  confidence : ℚ
  engine_id : EngineId
deriving DecidableEq, Repr

/-- Outcome of one engine invocation: recognized lines or a failure. -/
inductive EngineResult where
  | lines (ls : List RawOCRLine)
  | failed (e : EngineError)
deriving DecidableEq, Repr

/-- Outcome of the orchestrator: a successful line set tagged with the engine
that produced it, a propagated fatal caller/config error, or exhaustion of
both engines. -/
inductive OrchestratorOutcome where
  | success (ls : List RawOCRLine) (engine_used : EngineId)
  | fatal (e : EngineError)
  | engineUnavailable
deriving DecidableEq, Repr

/-- Modelled from the spec: how the orchestrator consumes the fallback
engine's result (spec §4.2 steps 2 and 4, §7).  Recognized lines (possibly
empty) succeed with `engine_used = fallback`; `NoTextFound` is a valid empty
result (spec §7); any other failure exhausts both engines. -/
def consumeFallback (f : EngineResult) : OrchestratorOutcome :=
  match f with
  | .lines ls => .success ls .fallback
  | .failed .noTextFound => .success [] .fallback
  | .failed _ => .engineUnavailable

/-- Modelled from the spec: the Engine Orchestrator policy (§4.2), over the
results of the single primary attempt and the single fallback attempt.
Returns the outcome together with the invocation trace — the sequence of
engine calls actually made — so that "exactly once" properties are
expressible.  Primary `Timeout`, `TransportError`, `QuotaExceeded`,
`NoTextFound` or zero lines fall back to the local engine; `Unauthorized` and
`MalformedImage` propagate without fallback; a non-empty primary line set is
returned with `engine_used = primary`. -/
def orchestrate (p f : EngineResult) : OrchestratorOutcome × List EngineId :=
  match p with
  | .lines ls =>
    if ls.isEmpty then (consumeFallback f, [.primary, .fallback])
    else (.success ls .primary, [.primary])
  | .failed .unauthorized => (.fatal .unauthorized, [.primary])
  | .failed .malformedImage => (.fatal .malformedImage, [.primary])
  | .failed _ => (consumeFallback f, [.primary, .fallback])

/-! ## OCR core: text matching helpers -/

/-- Whether `sub` is a leading segment of `s` (character lists). -/
def startsWithChars : List Char → List Char → Bool
  | [], _ => true
  | _ :: _, [] => false
  | a :: as, b :: bs => a = b && startsWithChars as bs

/-- Whether `sub` occurs contiguously anywhere in the list. -/
def hasSubstr (sub : List Char) : List Char → Bool
  | [] => sub.isEmpty
  | c :: rest => startsWithChars sub (c :: rest) || hasSubstr sub rest

/-- Keyword containment on strings. -/
def containsKw (kw s : String) : Bool := hasSubstr kw.toList s.toList

/-- Whether the head of the list matches a character-class template. -/
def matchesShape : List (Char → Bool) → List Char → Bool
  | [], _ => true
  | _ :: _, [] => false
  | p :: ps, c :: cs => p c && matchesShape ps cs

/-- First substring matching a character-class template, if any. -/
def scanShape (shape : List (Char → Bool)) : List Char → Option (List Char)
  | [] => if shape.isEmpty then some [] else none
  | c :: rest =>
    if matchesShape shape (c :: rest) then some ((c :: rest).take shape.length)
    else scanShape shape rest

/-- Character-class template element matching one fixed character. -/
def chIs (ch : Char) : Char → Bool := fun c => c = ch

/-! ## OCR core: source classifier (spec §4.4)

Modelled from the spec; the spendmate-ocr classifier source is absent. -/

/-- Timestamp-with-seconds template `HH:MM:SS` (a bank-alert cue, §4.4). -/
def timeWithSecondsShape : List (Char → Bool) :=
  [Char.isDigit, Char.isDigit, chIs ':', Char.isDigit, Char.isDigit, chIs ':',
    Char.isDigit, Char.isDigit]

/-- Business-registration-number template `ddd-dd-ddddd` (a receipt cue). -/
def bizRegShape : List (Char → Bool) :=
  [Char.isDigit, Char.isDigit, Char.isDigit, chIs '-', Char.isDigit,
    Char.isDigit, chIs '-', Char.isDigit, Char.isDigit, Char.isDigit,
    Char.isDigit, Char.isDigit]

/-- Characters allowed in an account-number token: digits, dashes and the
mask star (partially masked account fragments, spec §1). -/
def isAccountChar (c : Char) : Bool := c.isDigit || c = '-' || c = '*'

/-- Modelled from the spec: the account-number pattern — a whitespace-
delimited token of length at least 6 made of digits, dashes and stars,
containing at least one digit and one dash. -/
def isAccountToken (t : String) : Bool :=
  6 ≤ t.toList.length && t.toList.all isAccountChar &&
    t.toList.any Char.isDigit && t.toList.any (chIs '-')

/-- First account-number token of a line, if any. -/
def accountTokenOf (s : String) : Option String :=
  (s.splitOn " ").find? isAccountToken

/-- Modelled from the spec: the bank-alert cue family (§4.4): an
account-number pattern, the balance keyword, a transaction-direction keyword
and a timestamp-with-seconds pattern. -/
def bankCues : List (String → Bool) :=
  [fun s => (accountTokenOf s).isSome,
    fun s => containsKw "잔액" s,
    fun s => containsKw "출금" s || containsKw "입금" s,
    fun s => (scanShape timeWithSecondsShape s.toList).isSome]

/-- Modelled from the spec: the receipt cue family (§4.4): an item/quantity
keyword, a total keyword and a business-registration-number pattern. -/
def receiptCues : List (String → Bool) :=
  [fun s => containsKw "수량" s,
    fun s => containsKw "총" s || containsKw "합계" s,
    fun s => (scanShape bizRegShape s.toList).isSome || containsKw "사업자" s]

/-- Number of cues of a family matched by at least one line. -/
def cueScore (cues : List (String → Bool)) (lines : List String) : ℕ :=
  (cues.filter (fun c => lines.any c)).length

/-- Document provenance (spec §3 `source_type`). -/
inductive SourceType where
  | bank_alert
  | receipt
  | unknown
deriving DecidableEq, Repr

/-- Modelled from the spec: the Source Classifier (§4.4).  The family with
strictly more matched cues wins; a tie (including zero matches in both
families) yields `unknown`.  A pure function of the line texts. -/
def classify (lines : List String) : SourceType :=
  if cueScore receiptCues lines < cueScore bankCues lines then .bank_alert
  else if cueScore bankCues lines < cueScore receiptCues lines then .receipt
  else .unknown

/-! ## OCR core: field extractor (spec §4.5)

Modelled from the spec; the spendmate-ocr extractor source is absent. -/

/-- An extracted field value together with the index of the line it was
matched on (spec §3 `matched_line_index`). -/
structure FieldVal (α : Type) where
  value : α
  matched_line_index : ℕ
deriving DecidableEq, Repr

/-- The structured extraction result (spec §3 `ParsedFields`). -/
structure ParsedFields where
  source_type : SourceType
  merchant : Option (FieldVal String)
  amount : Option (FieldVal ℚ)
  account_masked : Option (FieldVal String)
  timestamp : Option (FieldVal String)
  balance : Option (FieldVal ℚ)
deriving DecidableEq, Repr

/-- Index-tracking search: first line (from index `i`) satisfying `p`,
returned with its absolute index. -/
def findLineAux (p : String → Bool) : ℕ → List String → Option (ℕ × String)
  | _, [] => none
  | i, l :: rest => if p l then some (i, l) else findLineAux p (i + 1) rest

/-- First line satisfying `p`, with its index in the line sequence. -/
def findLine (p : String → Bool) (lines : List String) : Option (ℕ × String) :=
  findLineAux p 0 lines

/-- Generic field construction: locate the first line satisfying `pred` and
derive the field value from that line's text with `f`; the field records the
matched line's index. -/
def mkField {α : Type} (lines : List String) (pred : String → Bool)
    (f : String → Option α) : Option (FieldVal α) :=
  match findLine pred lines with
  | none => none
  | some il =>
    match f il.2 with
    | none => none
    | some v => some ⟨v, il.1⟩

/-- Removes the first occurrence of `sub` from the list (identity when `sub`
does not occur or is empty). -/
def stripFirst (sub : List Char) : List Char → List Char
  | [] => []
  | c :: rest =>
    if sub ≠ [] && startsWithChars sub (c :: rest) then
      List.drop (sub.length - 1) rest
    else c :: stripFirst sub rest

/-- Removes leading and trailing spaces. -/
def trimSpaces (cs : List Char) : List Char :=
  ((cs.dropWhile (chIs ' ')).reverse.dropWhile (chIs ' ')).reverse

/-- Modelled from the spec: bank-alert merchant heuristic (§4.5) — the text
of the matched line adjacent to the transaction-direction keyword, i.e. the
line with the direction keyword removed and trimmed. -/
def bankMerchantOfLine (s : String) : Option String :=
  some (String.mk (trimSpaces (stripFirst "출금".toList
    (stripFirst "입금".toList s.toList))))

/-- Modelled from the spec: the numeric token of a line, stripped of
thousands separators and currency suffix (§4.5) — the line's digits read as
one integer; `none` when the line has no digit. -/
def amountOfLine (s : String) : Option ℚ :=
  let ds := s.toList.filter Char.isDigit
  if ds = [] then none else some (digitsToNat ds)

/-- The fixed number of trailing characters kept visible by the extractor's
masking (the spec allows 2-3; the model fixes the default 3). -/
def ocrKeepTail : ℕ := 3

/-- Modelled from the spec: the masked account field of a line — its
account-number token passed through `maskAccount`. -/
def accountMaskedOfLine (s : String) : Option String :=
  (accountTokenOf s).map (maskAccount ocrKeepTail)

/-- Date+time template `MM/DD HH:MM:SS` (spec §4.5). -/
def mmddShape : List (Char → Bool) :=
  [Char.isDigit, Char.isDigit, chIs '/', Char.isDigit, Char.isDigit, chIs ' ',
    Char.isDigit, Char.isDigit, chIs ':', Char.isDigit, Char.isDigit, chIs ':',
    Char.isDigit, Char.isDigit]

/-- Date+time template `YYYY-MM-DD HH:MM:SS` (spec §4.5). -/
def ymdShape : List (Char → Bool) :=
  [Char.isDigit, Char.isDigit, Char.isDigit, Char.isDigit, chIs '-',
    Char.isDigit, Char.isDigit, chIs '-', Char.isDigit, Char.isDigit, chIs ' ',
    Char.isDigit, Char.isDigit, chIs ':', Char.isDigit, Char.isDigit, chIs ':',
    Char.isDigit, Char.isDigit]

/-- ISO-8601 normalization of a `YYYY-MM-DD HH:MM:SS` match: the space
becomes `T`. -/
def isoOfYmd (t : List Char) : String :=
  String.mk (t.take 10 ++ 'T' :: t.drop 11)

/-- ISO-8601 normalization of a `MM/DD HH:MM:SS` match using the injected
current year (§4.5: "using the current year when year is absent"). -/
def isoOfMmdd (nowYear : ℕ) (t : List Char) : String :=
  toString nowYear ++ "-" ++ String.mk (t.take 2) ++ "-" ++
    String.mk ((t.drop 3).take 2) ++ "T" ++ String.mk (t.drop 6)

/-- Modelled from the spec: the timestamp of a line — the first token
matching a known date+time template, normalized to ISO-8601 (§4.5); the
four-digit-year form is preferred, the year-less form uses the injected
year. -/
def timestampOfLine (nowYear : ℕ) (s : String) : Option String :=
  match scanShape ymdShape s.toList with
  | some t => some (isoOfYmd t)
  | none => (scanShape mmddShape s.toList).map (isoOfMmdd nowYear)

/-- Line predicate: contains a transaction-direction keyword. -/
def isDirectionLine (s : String) : Bool :=
  containsKw "출금" s || containsKw "입금" s

/-- Line predicate: an amount-labeled line — currency suffix and a digit,
and not the balance line. -/
def isBankAmountLine (s : String) : Bool :=
  containsKw "원" s && s.toList.any Char.isDigit && !containsKw "잔액" s

/-- Line predicate: the balance keyword followed by a number. -/
def isBalanceLine (s : String) : Bool :=
  containsKw "잔액" s && s.toList.any Char.isDigit

/-- Line predicate: contains a known date+time token. -/
def isTimestampLine (s : String) : Bool :=
  (scanShape ymdShape s.toList).isSome || (scanShape mmddShape s.toList).isSome

/-- Line predicate: a total/payment keyword with a digit (receipt amount). -/
def isTotalLine (s : String) : Bool :=
  (containsKw "총" s || containsKw "합계" s || containsKw "결제" s) &&
    s.toList.any Char.isDigit

/-- The empty extraction result for unknown documents (spec §4.5): all
fields null. -/
def emptyParsed : ParsedFields :=
  { source_type := .unknown, merchant := none, amount := none,
    account_masked := none, timestamp := none, balance := none }

/-- Modelled from the spec: bank-alert extraction (§4.5). -/
def extractBank (nowYear : ℕ) (lines : List String) : ParsedFields :=
  { source_type := .bank_alert
    merchant := mkField lines isDirectionLine bankMerchantOfLine
    amount := mkField lines isBankAmountLine amountOfLine
    account_masked :=
      mkField lines (fun s => (accountTokenOf s).isSome) accountMaskedOfLine
    timestamp := mkField lines isTimestampLine (timestampOfLine nowYear)
    balance := mkField lines isBalanceLine amountOfLine }

/-- Modelled from the spec: receipt extraction (§4.5) — merchant is the
first non-empty line, amount the numeric token near a total/payment keyword;
account and balance are left null. -/
def extractReceipt (nowYear : ℕ) (lines : List String) : ParsedFields :=
  { source_type := .receipt
    merchant := mkField lines (fun s => s != "") (fun s => some s)
    amount := mkField lines isTotalLine amountOfLine
    account_masked := none
    timestamp := mkField lines isTimestampLine (timestampOfLine nowYear)
    balance := none }

/-- Modelled from the spec: the Field Extractor (§4.5), dispatching on the
classified source type; unknown documents get the empty result. -/
def extractFields (nowYear : ℕ) (st : SourceType) (lines : List String) :
    ParsedFields :=
  match st with
  | .bank_alert => extractBank nowYear lines
  | .receipt => extractReceipt nowYear lines
  | .unknown => emptyParsed

/-! ## OCR core: line normalizer (spec §4.3)

Modelled from the spec; the spendmate-ocr normalizer source is absent. -/

/-- Signed area of a bounding box. -/
def boxArea (b : BBox) : ℚ := b.w * b.h

/-- Length of the overlap of two intervals given by origin and extent. -/
def interLen (a1 l1 a2 l2 : ℚ) : ℚ := max 0 (min (a1 + l1) (a2 + l2) - max a1 a2)

/-- Intersection-over-union of two boxes (ℚ division, total). -/
def iou (a b : BBox) : ℚ :=
  let inter := interLen a.x a.w b.x b.w * interLen a.y a.h b.y b.h
  inter / (boxArea a + boxArea b - inter)

/-- IoU threshold above which two boxes count as near-identical overlaps. -/
def iouThreshold : ℚ := 1 / 2

/-- Whether two boxes overlap above the deduplication threshold. -/
def overlaps (a b : BBox) : Bool := decide (iouThreshold < iou a b)

/-- Modelled from the spec: deduplication step (§4.3) — a line overlapping a
kept near-identical box replaces it only when it has strictly higher
confidence; otherwise it is appended. -/
def dedupeInsert (l : RawOCRLine) (kept : List RawOCRLine) : List RawOCRLine :=
  if kept.any (fun k => overlaps k.box l.box) then
    kept.map (fun k =>
      if overlaps k.box l.box && decide (k.confidence < l.confidence) then l
      else k)
  else kept ++ [l]

/-- Deduplicates near-identical overlapping boxes, keeping the
higher-confidence instance. -/
def dedupe (ls : List RawOCRLine) : List RawOCRLine :=
  ls.foldl (fun acc l => dedupeInsert l acc) []

/-- Modelled from the spec: reading order (§4.3) — top-to-bottom, then
left-to-right within a vertical tolerance band derived from the box
heights. -/
def readingOrderLe (a b : RawOCRLine) : Bool :=
  if |a.box.y - b.box.y| ≤ min a.box.h b.box.h / 2 then
    decide (a.box.x ≤ b.box.x)
  else decide (a.box.y ≤ b.box.y)

/-- Insertion step of the deterministic reading-order sort. -/
def insertLine (l : RawOCRLine) : List RawOCRLine → List RawOCRLine
  | [] => [l]
  | k :: rest =>
    if readingOrderLe l k then l :: k :: rest else k :: insertLine l rest

/-- Deterministic insertion sort into reading order. -/
def sortLines (ls : List RawOCRLine) : List RawOCRLine := ls.foldr insertLine []

/-- Modelled from the spec: the Line Normalizer (§4.3) — deduplicate, then
sort into reading order. -/
def normalizeLines (ls : List RawOCRLine) : List RawOCRLine :=
  sortLines (dedupe ls)

/-- The merged `raw_text`: ordered line texts joined with newlines (§4.3). -/
def rawTextOf (ls : List RawOCRLine) : String :=
  String.intercalate "\n" (ls.map RawOCRLine.text)

/-! ## Determinism harness (spec §8)

The three pipeline stages are run against an ambient world (wall clock,
randomness source) to express that their outputs do not depend on it. -/

/-- Ambient state a non-deterministic implementation could consult: the wall
clock and a randomness source. -/
structure World where
  wallClockMs : ℕ
  randomSeed : ℕ

/-- The Line Normalizer run in an ambient world. -/
def normalizeLinesRun (_w : World) (ls : List RawOCRLine) : List RawOCRLine :=
  normalizeLines ls

/-- The Source Classifier run in an ambient world. -/
def classifyRun (_w : World) (lines : List String) : SourceType :=
  classify lines

/-- The Field Extractor run in an ambient world with an injected year. -/
def extractFieldsRun (_w : World) (nowYear : ℕ) (st : SourceType)
    (lines : List String) : ParsedFields :=
  extractFields nowYear st lines

/-! ## Traceability predicate (spec §3, §8) -/

/-- A field value originates from the document's lines via the per-line
extraction function `f`: its `matched_line_index` is a valid index into the
line sequence and applying `f` to the text of that line yields exactly the
stored value. -/
def OriginatesVia {α : Type} (lines : List String) (f : String → Option α)
    (fv : FieldVal α) : Prop :=
  ∃ h : fv.matched_line_index < lines.length,
    f (lines.get ⟨fv.matched_line_index, h⟩) = some fv.value

/-- The per-line merchant derivation used by each source type. -/
def merchantLineFn : SourceType → String → Option String
  | .bank_alert => bankMerchantOfLine
  | .receipt => fun s => some s
  | .unknown => fun _ => none

/-! ## Helper lemmas -/

theorem findLineAux_spec (p : String → Bool) (ls : List String) (i j : ℕ)
    (l : String) (h : findLineAux p i ls = some (j, l)) :
    i ≤ j ∧ ∃ hj : j - i < ls.length, ls.get ⟨j - i, hj⟩ = l ∧ p l = true := by
  induction ls generalizing i with
  | nil => simp [findLineAux] at h
  | cons a rest ih =>
    rw [findLineAux] at h
    by_cases hp : p a
    · rw [if_pos hp] at h
      have h2 : i = j ∧ a = l := by simpa using h
      obtain ⟨hij, hal⟩ := h2
      subst hij; subst hal
      refine ⟨le_refl _, ?_⟩
      have h0 : i - i = 0 := by omega
      rw [h0]
      exact ⟨Nat.succ_pos _, rfl, hp⟩
    · rw [if_neg hp] at h
      obtain ⟨hij, hj, hget, hpl⟩ := ih (i + 1) h
      refine ⟨by omega, ?_⟩
      have hsub : j - i = (j - (i + 1)) + 1 := by omega
      rw [hsub]
      exact ⟨by simpa using Nat.succ_lt_succ hj, by simpa using ⟨hget, hpl⟩⟩

theorem findLine_spec (p : String → Bool) (ls : List String) (j : ℕ)
    (l : String) (h : findLine p ls = some (j, l)) :
    ∃ hj : j < ls.length, ls.get ⟨j, hj⟩ = l ∧ p l = true := by
  have := findLineAux_spec p ls 0 j l h
  simpa using this.2

theorem mkField_originates {α : Type} (lines : List String)
    (pred : String → Bool) (f : String → Option α) (fv : FieldVal α)
    (h : mkField lines pred f = some fv) : OriginatesVia lines f fv := by
  unfold mkField at h
  cases hfl : findLine pred lines with
  | none => simp [hfl] at h
  | some il =>
    simp only [hfl] at h
    cases hf : f il.2 with
    | none => simp [hf] at h
    | some v =>
      simp only [hf] at h
      obtain rfl : (⟨v, il.1⟩ : FieldVal α) = fv := Option.some.inj h
      obtain ⟨hj, hget, _⟩ := findLine_spec pred lines il.1 il.2 hfl
      exact ⟨hj, by rw [hget, hf]⟩

theorem isDigit_ne_dot {c : Char} (h : c.isDigit = true) : ¬ c = '.' := by
  intro hc
  subst hc
  exact absurd h (by decide)

theorem isDigit_ne_dash {c : Char} (h : c.isDigit = true) : ¬ c = '-' := by
  intro hc
  subst hc
  exact absurd h (by decide)

theorem splitAtDot_no_dot (cs : List Char) (h : ∀ c ∈ cs, ¬ c = '.') :
    splitAtDot cs = (cs, none) := by
  induction cs with
  | nil => rfl
  | cons c rest ih =>
    have hc : ¬ c = '.' := h c (List.mem_cons_self c rest)
    have hrest : splitAtDot rest = (rest, none) :=
      ih (fun x hx => h x (List.mem_cons_of_mem c hx))
    simp only [splitAtDot, if_neg hc, hrest]

theorem jsUnsignedDec_digits (cs : List Char) (hne : cs ≠ [])
    (hall : cs.all Char.isDigit = true) :
    jsUnsignedDec cs = some ((digitsToNat cs : ℚ)) := by
  have hnd : ∀ c ∈ cs, ¬ c = '.' := by
    intro c hc
    exact isDigit_ne_dot (by simpa using List.all_eq_true.mp hall c hc)
  unfold jsUnsignedDec
  rw [splitAtDot_no_dot cs hnd]
  simp only [if_pos (And.intro hne hall)]

theorem jsNumber_digits (cs : List Char) (hne : cs ≠ [])
    (hall : cs.all Char.isDigit = true) :
    jsNumber cs = some ((digitsToNat cs : ℚ)) := by
  cases cs with
  | nil => exact absurd rfl hne
  | cons c rest =>
    have hc : c.isDigit = true := by
      simpa using List.all_eq_true.mp hall c (List.mem_cons_self c rest)
    show (if c = '-' then (jsUnsignedDec rest).map Neg.neg
      else jsUnsignedDec (c :: rest)) = some ((digitsToNat (c :: rest) : ℚ))
    rw [if_neg (isDigit_ne_dash hc)]
    exact jsUnsignedDec_digits _ hne hall

/-! ## Claim theorems -/

/-- C2: when the primary engine raises `EngineTimeout`, the orchestrator's
invocation trace is exactly one primary call followed by one fallback call —
the fallback is invoked exactly once, the primary is not re-invoked — and if
the fallback call succeeds its line set is returned with
`engine_used = fallback`. -/
theorem C2_fallback_on_timeout (f : EngineResult) :
    (orchestrate (.failed .timeout) f).2 = [.primary, .fallback] ∧
    ((orchestrate (.failed .timeout) f).2.count .fallback = 1 ∧
      (orchestrate (.failed .timeout) f).2.count .primary = 1) ∧
    (∀ ls, f = .lines ls →
      (orchestrate (.failed .timeout) f).1 = .success ls .fallback) := by
  refine ⟨rfl, ⟨rfl, rfl⟩, ?_⟩
  intro ls hf
  subst hf
  rfl

/-- Witness for C2 at a concrete fallback result. -/
theorem C2_fallback_on_timeout_witness :
    (orchestrate (.failed .timeout) (.lines [])).1 = .success [] .fallback :=
  (C2_fallback_on_timeout (.lines [])).2.2 [] rfl

/-- C3: for any classified line set of source type `unknown`, the Field
Extractor returns the empty `ParsedFields`: source type `unknown` and
merchant, amount, masked account, timestamp and balance all null. -/
theorem C3_unknown_all_null (nowYear : ℕ) (lines : List String) :
    extractFields nowYear .unknown lines = emptyParsed ∧
    (extractFields nowYear .unknown lines).source_type = .unknown ∧
    (extractFields nowYear .unknown lines).merchant = none ∧
    (extractFields nowYear .unknown lines).amount = none ∧
    (extractFields nowYear .unknown lines).account_masked = none ∧
    (extractFields nowYear .unknown lines).timestamp = none ∧
    (extractFields nowYear .unknown lines).balance = none :=
  ⟨rfl, rfl, rfl, rfl, rfl, rfl, rfl⟩

/-- C4: the classifier returns the cue family with strictly more matched
cues; any tie — including zero matches in both families — yields `unknown`;
and classification is a pure function of the line texts (independent of the
ambient world). -/
theorem C4_classifier_majority (lines : List String) :
    (classify lines = .bank_alert ↔
      cueScore receiptCues lines < cueScore bankCues lines) ∧
    (classify lines = .receipt ↔
      cueScore bankCues lines < cueScore receiptCues lines) ∧
    (cueScore bankCues lines = cueScore receiptCues lines →
      classify lines = .unknown) ∧
    (cueScore bankCues lines = 0 ∧ cueScore receiptCues lines = 0 →
      classify lines = .unknown) ∧
    (∀ w1 w2 : World, classifyRun w1 lines = classifyRun w2 lines) := by
  refine ⟨?_, ?_, ?_, ?_, fun _ _ => rfl⟩
  · unfold classify
    split_ifs with h1 h2 <;> simp <;> omega
  · unfold classify
    split_ifs with h1 h2 <;> simp <;> omega
  · intro h
    unfold classify
    rw [if_neg (by omega), if_neg (by omega)]
  · intro h
    unfold classify
    rw [if_neg (by omega), if_neg (by omega)]

/-- Witness for C4: the empty line set matches zero cues in both families
and is classified `unknown`. -/
theorem C4_classifier_majority_witness : classify [] = .unknown :=
  (C4_classifier_majority []).2.2.1 rfl

/-- C6: determinism — for any two runs on identical inputs (and the same
injected year), in arbitrary ambient worlds, the Line Normalizer, Source
Classifier and Field Extractor produce identical outputs; none of them
consults the wall clock or the randomness source. -/
theorem C6_determinism (w1 w2 : World) (ls1 ls2 : List RawOCRLine)
    (texts1 texts2 : List String) (nowYear : ℕ) (st : SourceType)
    (hls : ls1 = ls2) (htx : texts1 = texts2) :
    normalizeLinesRun w1 ls1 = normalizeLinesRun w2 ls2 ∧
    classifyRun w1 texts1 = classifyRun w2 texts2 ∧
    extractFieldsRun w1 nowYear st texts1 =
      extractFieldsRun w2 nowYear st texts2 := by
  subst hls
  subst htx
  exact ⟨rfl, rfl, rfl⟩

/-- Witness for C6 at concrete distinct worlds and a concrete input. -/
theorem C6_determinism_witness :
    normalizeLinesRun ⟨0, 0⟩ [] = normalizeLinesRun ⟨5, 7⟩ [] ∧
    classifyRun ⟨0, 0⟩ ["x"] = classifyRun ⟨5, 7⟩ ["x"] ∧
    extractFieldsRun ⟨0, 0⟩ 2025 .unknown ["x"] =
      extractFieldsRun ⟨5, 7⟩ 2025 .unknown ["x"] :=
  C6_determinism ⟨0, 0⟩ ⟨5, 7⟩ [] [] ["x"] ["x"] 2025 .unknown rfl rfl

/-- C8: `toggleSelection` resets the field to the empty string when its
current value equals the toggled value, sets it to the toggled value
otherwise, never touches other fields, and applying it twice with the same
arguments from a state whose entry differs from the value restores the entry
to empty. -/
theorem C8_toggleSelection_spec (fieldKey : Field) (value : String)
    (prev : Selections) :
    (prev fieldKey = value → toggleSelection fieldKey value prev fieldKey = "") ∧
    (prev fieldKey ≠ value →
      toggleSelection fieldKey value prev fieldKey = value) ∧
    (∀ k, k ≠ fieldKey → toggleSelection fieldKey value prev k = prev k) ∧
    (prev fieldKey ≠ value →
      toggleSelection fieldKey value (toggleSelection fieldKey value prev)
        fieldKey = "") := by
  refine ⟨fun h => ?_, fun h => ?_, fun k hk => ?_, fun h => ?_⟩
  · simp [toggleSelection, h]
  · simp [toggleSelection, h]
  · simp [toggleSelection, hk]
  · simp [toggleSelection, h]

/-- Witness for C8: toggling the merchant field twice from the initial state
returns its entry to the empty string. -/
theorem C8_toggleSelection_spec_witness :
    toggleSelection .merchant "카페"
      (toggleSelection .merchant "카페" buildInitialSelections) .merchant = "" :=
  (C8_toggleSelection_spec .merchant "카페" buildInitialSelections).2.2.2
    (by decide)

/-- C5: traceability — for every source type and line set, every non-null
field of the extraction result carries a `matched_line_index` that is a valid
index into the line sequence, and its stored value is exactly what the
per-field derivation computes from the text of that line (nothing is
fabricated from outside the recognized text). -/
theorem C5_traceability (nowYear : ℕ) (st : SourceType) (lines : List String) :
    (∀ fv, (extractFields nowYear st lines).merchant = some fv →
      OriginatesVia lines (merchantLineFn st) fv) ∧
    (∀ fv, (extractFields nowYear st lines).amount = some fv →
      OriginatesVia lines amountOfLine fv) ∧
    (∀ fv, (extractFields nowYear st lines).account_masked = some fv →
      OriginatesVia lines accountMaskedOfLine fv) ∧
    (∀ fv, (extractFields nowYear st lines).timestamp = some fv →
      OriginatesVia lines (timestampOfLine nowYear) fv) ∧
    (∀ fv, (extractFields nowYear st lines).balance = some fv →
      OriginatesVia lines amountOfLine fv) := by
  cases st with
  | bank_alert =>
    exact ⟨fun fv h => mkField_originates _ _ _ _ h,
      fun fv h => mkField_originates _ _ _ _ h,
      fun fv h => mkField_originates _ _ _ _ h,
      fun fv h => mkField_originates _ _ _ _ h,
      fun fv h => mkField_originates _ _ _ _ h⟩
  | receipt =>
    exact ⟨fun fv h => mkField_originates _ _ _ _ h,
      fun fv h => mkField_originates _ _ _ _ h,
      fun fv h => Option.noConfusion h,
      fun fv h => mkField_originates _ _ _ _ h,
      fun fv h => Option.noConfusion h⟩
  | unknown =>
    exact ⟨fun fv h => Option.noConfusion h, fun fv h => Option.noConfusion h,
      fun fv h => Option.noConfusion h, fun fv h => Option.noConfusion h,
      fun fv h => Option.noConfusion h⟩

/-- Witness for C5: on a concrete bank-alert line set the extracted amount
11000 is traced to line 0, whose text indeed derives it. -/
theorem C5_traceability_witness :
    OriginatesVia ["11,000원 출금"] amountOfLine ⟨(11000 : ℚ), 0⟩ :=
  (C5_traceability 2025 .bank_alert ["11,000원 출금"]).2.1 ⟨11000, 0⟩ rfl

/-- C7: `parseAmount` tolerates thousands separators and a trailing currency
word — concretely, parsing "11,000원" yields 11000, and in general any string
whose kept residue (digits, dot, minus) is a non-empty digit sequence parses
to that sequence's numeric value — and it rejects (yields `null` for) every
token whose residue is not reducible to a well-formed numeral after removing
the tolerated noise. -/
theorem C7_parseAmount_spec :
    parseAmount "11,000원" = some 11000 ∧
    (∀ s : String, (s.toList.filter keepChar).all Char.isDigit = true →
      s.toList.filter keepChar ≠ [] →
      parseAmount s = some ((digitsToNat (s.toList.filter keepChar) : ℚ))) ∧
    (∀ s : String, jsNumber (s.toList.filter keepChar) = none →
      parseAmount s = none) := by
  refine ⟨?_, ?_, ?_⟩
  · decide
  · intro s hall hne
    have hsl : ¬ s.toList = [] := by
      intro h
      rw [h] at hne
      exact hne rfl
    unfold parseAmount
    rw [if_neg hsl, if_neg hne]
    exact jsNumber_digits _ hne hall
  · intro s h
    unfold parseAmount
    split_ifs with h1 h2
    · rfl
    · rfl
    · exact h

/-- Witness for C7: a grouped amount with currency suffix parses to its digit
value, and a digit-free token is rejected. -/
theorem C7_parseAmount_spec_witness :
    parseAmount "1,871,195원" =
      some ((digitsToNat ("1,871,195원".toList.filter keepChar) : ℚ)) ∧
    parseAmount "원화" = none :=
  ⟨C7_parseAmount_spec.2.1 "1,871,195원" (by decide) (by decide),
    C7_parseAmount_spec.2.2 "원화" (by decide)⟩

/-- C1 counterexample: on the recognized pattern "123456" of length 6 ≥ 6
the claimed invariant fails for every admissible tail width — keeping the
last 2 characters masks nothing, so the masked string equals the full
unmasked number (which therefore appears in the response), while keeping the
last 3 characters yields a string of length 7 ≠ 6. -/
theorem C1_mask_counterexample :
    6 ≤ "123456".toList.length ∧
    maskAccount 2 "123456" = "123456" ∧
    maskAccount 3 "123456" = "1234456" ∧
    ¬ ("1234456".toList.length = "123456".toList.length) := by
  refine ⟨by decide, rfl, rfl, by decide⟩

/-- C1 amended: for a tail width `keepTail ∈ {2, 3}` and any recognized
pattern of length at least `5 + keepTail`, the masked string has the same
length as the pattern, preserves exactly the first 4 and the last `keepTail`
characters, replaces every remaining character by the fixed mask character,
and — whenever at least one of the replaced characters of the pattern is not
itself the mask character — differs from the full unmasked pattern, which
therefore never appears in the response; for shorter patterns (such as
length 6) the kept prefix and suffix cover the whole pattern and the claimed
invariant does not hold. -/
theorem C1_mask_amended (keepTail : ℕ) (s : String) (h2 : 2 ≤ keepTail)
    (h3 : keepTail ≤ 3) (hn : 5 + keepTail ≤ s.toList.length) :
    (maskAccount keepTail s).toList.length = s.toList.length ∧
    (maskAccount keepTail s).toList.take 4 = s.toList.take 4 ∧
    (maskAccount keepTail s).toList.drop (s.toList.length - keepTail) =
      s.toList.drop (s.toList.length - keepTail) ∧
    (∀ c ∈ ((maskAccount keepTail s).toList.drop 4).take
        (s.toList.length - (4 + keepTail)), c = maskChar) ∧
    ((∃ c ∈ (s.toList.drop 4).take (s.toList.length - (4 + keepTail)),
        ¬ c = maskChar) → maskAccount keepTail s ≠ s) := by
  have hml : (maskAccount keepTail s).toList =
      s.toList.take 4 ++
        List.replicate (s.toList.length - (4 + keepTail)) maskChar ++
        s.toList.drop (s.toList.length - keepTail) := rfl
  have hlen4 : (s.toList.take 4).length = 4 := by
    rw [List.length_take]; omega
  have hlenA : (s.toList.take 4 ++
      List.replicate (s.toList.length - (4 + keepTail)) maskChar).length =
      s.toList.length - keepTail := by
    rw [List.length_append, hlen4, List.length_replicate]; omega
  have hdrop4 : (maskAccount keepTail s).toList.drop 4 =
      List.replicate (s.toList.length - (4 + keepTail)) maskChar ++
        s.toList.drop (s.toList.length - keepTail) := by
    rw [hml, List.append_assoc, List.drop_left' hlen4]
  have hmid : ((maskAccount keepTail s).toList.drop 4).take
      (s.toList.length - (4 + keepTail)) =
      List.replicate (s.toList.length - (4 + keepTail)) maskChar := by
    rw [hdrop4,
      List.take_append_of_le_length (by rw [List.length_replicate]),
      List.take_replicate, min_self]
  refine ⟨?_, ?_, ?_, ?_, ?_⟩
  · rw [hml]
    simp only [List.length_append, List.length_take, List.length_replicate,
      List.length_drop]
    omega
  · rw [hml, List.append_assoc,
      List.take_append_of_le_length (le_of_eq hlen4.symm), List.take_take,
      min_self]
  · rw [hml, List.drop_left' hlenA]
  · intro c hc
    rw [hmid] at hc
    exact List.eq_of_mem_replicate hc
  · rintro ⟨c, hcmem, hcne⟩ heq
    have hleq : (maskAccount keepTail s).toList = s.toList := by rw [heq]
    rw [hleq] at hmid
    rw [hmid] at hcmem
    exact hcne (List.eq_of_mem_replicate hcmem)

/-- Witness for C1 amended: masking "12345678" with tail width 2 keeps
"1234" and "78", masks the middle and differs from the original. -/
theorem C1_mask_amended_witness :
    (maskAccount 2 "12345678").toList.length = "12345678".toList.length ∧
    maskAccount 2 "12345678" ≠ "12345678" := by
  refine ⟨(C1_mask_amended 2 "12345678" (by decide) (by decide) (by decide)).1,
    (C1_mask_amended 2 "12345678" (by decide) (by decide)
      (by decide)).2.2.2.2 ⟨'5', by decide, by decide⟩⟩

/-- C9 counterexample: the input 0.3 is neither NaN nor non-positive, and the
handler stores `Math.min(99, Math.round(0.3)) = 0`, which is not in the
claimed range 1..99. -/
theorem C9_participant_counterexample :
    handleParticipantCountChange (.fin (3 / 10)) = 0 ∧
    ¬ (1 ≤ handleParticipantCountChange (.fin (3 / 10))) := by
  have h : jsRound (3 / 10) = 0 := by
    rw [jsRound, Int.floor_eq_zero_iff, Set.mem_Ico]
    norm_num
  have h0 : handleParticipantCountChange (.fin (3 / 10)) = 0 := by
    simp only [handleParticipantCountChange,
      if_neg (by norm_num : ¬ (3 / 10 : ℚ) ≤ 0), h]
    decide
  exact ⟨h0, by rw [h0]; decide⟩

/-- C9 amended: the handler stores a rounded value clamped to at most 99 and
at least 0 — NaN and non-positive inputs store 1, any input ≥ 1/2 stores at
least 1, but a finite input strictly between 0 and 1/2 rounds to 0 — and the
equal-share computation never divides by a non-positive count: it returns
null when the total is null or the count is not positive, and divides only
with a strictly positive divisor. -/
theorem C9_participant_equalShare_amended (next : JSNum) (t : Option ℚ)
    (pc : ℤ) :
    (0 ≤ handleParticipantCountChange next ∧
      handleParticipantCountChange next ≤ 99) ∧
    (next = .nan → handleParticipantCountChange next = 1) ∧
    (∀ q : ℚ, next = .fin q → q ≤ 0 → handleParticipantCountChange next = 1) ∧
    (∀ q : ℚ, next = .fin q → 1 / 2 ≤ q →
      1 ≤ handleParticipantCountChange next) ∧
    (equalShare none pc = none) ∧
    (pc ≤ 0 → equalShare t pc = none) ∧
    (∀ t0 : ℚ, t = some t0 → 0 < pc → equalShare t pc = some (t0 / pc)) := by
  refine ⟨?_, ?_, ?_, ?_, rfl, ?_, ?_⟩
  · cases next with
    | nan => exact ⟨by decide, by decide⟩
    | posInf => exact ⟨by decide, by decide⟩
    | negInf => exact ⟨by decide, by decide⟩
    | fin q =>
      by_cases hq : q ≤ 0
      · simp only [handleParticipantCountChange, if_pos hq]
        exact ⟨by decide, by decide⟩
      · simp only [handleParticipantCountChange, if_neg hq]
        constructor
        · refine le_min (by decide) ?_
          rw [jsRound, Int.le_floor]
          push_neg at hq
          push_cast
          linarith
        · exact min_le_left _ _
  · intro h; subst h; rfl
  · intro q hq hq0
    subst hq
    simp only [handleParticipantCountChange, if_pos hq0]
  · intro q hq hq0
    subst hq
    have hpos : ¬ q ≤ 0 := by linarith
    simp only [handleParticipantCountChange, if_neg hpos]
    refine le_min (by decide) ?_
    rw [jsRound, Int.le_floor]
    push_cast
    linarith
  · intro hpc
    cases t with
    | none => rfl
    | some t0 => simp only [equalShare, if_pos hpc]
  · intro t0 ht hpc
    subst ht
    simp only [equalShare, if_neg (by omega : ¬ pc ≤ 0)]

/-- Witness for C9 amended at concrete inputs: 2.5 stores 3 (within 0..99),
-4 stores 1, and a 10-won total split 4 ways yields 2.5 per person. -/
theorem C9_participant_equalShare_amended_witness :
    handleParticipantCountChange (.fin (5 / 2)) ≤ 99 ∧
    handleParticipantCountChange (.fin (-4)) = 1 ∧
    equalShare (some 10) 4 = some ((10 : ℚ) / ((4 : ℤ) : ℚ)) := by
  refine ⟨(C9_participant_equalShare_amended (.fin (5 / 2)) none 0).1.2, ?_, ?_⟩
  · exact (C9_participant_equalShare_amended (.fin (-4)) none 0).2.2.1 (-4) rfl
      (by norm_num)
  · exact (C9_participant_equalShare_amended (.fin 1) (some 10) 4).2.2.2.2.2.2
      10 rfl (by norm_num)

/-- C10 counterexample: for a 500 response whose body has a `detail` field
that is present but empty, the thrown message is the fixed fallback, not the
response's `detail` field. -/
theorem C10_fetch_counterexample :
    fetchLatestExpense ⟨500, .ok (Json.obj [("detail", Json.str "")])⟩ =
      .error (.appError latestExpenseFallbackMsg) ∧
    ¬ (latestExpenseFallbackMsg = Json.str "") := by
  refine ⟨rfl, fun h => ?_⟩
  injection h with h2
  exact absurd h2 (by decide)

/-- C10 amended: `fetchLatestExpense` returns null exactly on status 204,
returns the parsed JSON body on any other 2xx status whose body parses, and
throws on every non-ok status, with the thrown message equal to the `detail`
field when that field is present and truthy and equal to the fixed fallback
message when the field is absent or falsy (e.g. an empty string). -/
theorem C10_fetchLatestExpense_amended (r : Response) :
    (fetchLatestExpense r = .ok .noContent ↔ r.status = 204) ∧
    (r.status ≠ 204 → 200 ≤ r.status → r.status ≤ 299 →
      ∀ j, r.body = .ok j → fetchLatestExpense r = .ok (.body j)) ∧
    (¬ (200 ≤ r.status ∧ r.status ≤ 299) →
      fetchLatestExpense r = .error (.appError (errorMsgOf r.body)) ∧
      (∀ d, (r.body.toOption.getD (Json.obj [])).getField "detail" = some d →
        jsTruthy d = true → errorMsgOf r.body = d) ∧
      (∀ d, (r.body.toOption.getD (Json.obj [])).getField "detail" = some d →
        jsTruthy d = false → errorMsgOf r.body = latestExpenseFallbackMsg) ∧
      ((r.body.toOption.getD (Json.obj [])).getField "detail" = none →
        errorMsgOf r.body = latestExpenseFallbackMsg)) := by
  refine ⟨⟨?_, ?_⟩, ?_, ?_⟩
  · intro h
    by_contra h204
    unfold fetchLatestExpense at h
    rw [if_neg h204] at h
    by_cases hok : r.ok = true
    · rw [if_neg (not_not_intro hok)] at h
      cases hb : r.body with
      | ok j => rw [hb] at h; exact FetchResult.noConfusion (Except.ok.inj h)
      | error e => rw [hb] at h; exact Except.noConfusion h
    · rw [if_pos hok] at h
      exact Except.noConfusion h
  · intro h
    unfold fetchLatestExpense
    rw [if_pos h]
  · intro h204 hlo hhi j hb
    have hok : r.ok = true := by
      simp only [Response.ok, decide_eq_true_eq]
      exact ⟨hlo, hhi⟩
    unfold fetchLatestExpense
    rw [if_neg h204, if_neg (not_not_intro hok), hb]
  · intro hnotok
    have h204 : ¬ r.status = 204 := by omega
    have hok : ¬ r.ok = true := by
      simp only [Response.ok, decide_eq_true_eq]
      exact hnotok
    refine ⟨?_, ?_, ?_, ?_⟩
    · unfold fetchLatestExpense
      rw [if_neg h204, if_pos hok]
    · intro d hd ht
      unfold errorMsgOf
      rw [hd]
      simp only [if_pos ht]
    · intro d hd ht
      unfold errorMsgOf
      rw [hd]
      simp only [ht, Bool.false_eq_true, if_false]
    · intro hd
      unfold errorMsgOf
      rw [hd]

/-- Witness for C10 amended at concrete responses: a 204 returns null, a 200
with a null JSON body returns that body, and a 404 with an unparseable body
throws the fallback message. -/
theorem C10_fetchLatestExpense_amended_witness :
    fetchLatestExpense ⟨204, .ok Json.null⟩ = .ok .noContent ∧
    fetchLatestExpense ⟨200, .ok Json.null⟩ = .ok (.body Json.null) ∧
    fetchLatestExpense ⟨404, .error ()⟩ =
      .error (.appError latestExpenseFallbackMsg) := by
  refine ⟨?_, ?_, ?_⟩
  · exact (C10_fetchLatestExpense_amended ⟨204, .ok Json.null⟩).1.mpr rfl
  · exact (C10_fetchLatestExpense_amended ⟨200, .ok Json.null⟩).2.1
      (by decide) (by decide) (by decide) Json.null rfl
  · have h := (C10_fetchLatestExpense_amended ⟨404, .error ()⟩).2.2 (by decide)
    have hmsg := h.2.2.2 rfl
    have hf := h.1
    rw [hmsg] at hf
    exact hf

end PayScope
